import Mathlib

/-!
Shallow embedding of the `OrdersHelper` module of an academic-writing
marketplace backend (JavaScript / sequelize), together with proofs about the
behaviour of its workflows.

Conventions of the embedding:
* JavaScript strings are `List Char` in the pure filename code and `String`
  in the database rows; `split`, `slice` and `toLowerCase` are embedded as
  `jsSplit`, `jsSliceTo` and `jsToLower` below, following the semantics of
  the JavaScript operations.
* Database tables are lists of row structures; `findOne` is `List.find?`
  (first row in table order), `findAll` is `List.filter`, `update` maps over
  the matching rows, `create` appends a row.
* A JavaScript property access on `null`/`undefined` throws; workflows
  therefore return `Option (result × DB)`, where `none` means the enclosing
  transaction rejected and rolled back (no final state is observable).
* JavaScript numbers holding monetary amounts and ratings are `ℚ`;
  identifiers and counts are `ℕ`.
-/

namespace EsDbms

/-! ## JavaScript string primitives -/

/-- Embedding of `String.prototype.toLowerCase` (per-character lowering). -/
def jsToLower (s : String) : String := ⟨s.data.map Char.toLower⟩

/-- Embedding of `String.prototype.split` with a single-character separator:
`"a..b".split('.') = ["a", "", "b"]`, and the result is never empty. -/
def jsSplit (sep : Char) : List Char → List (List Char)
  | [] => [[]]
  | c :: cs =>
    match jsSplit sep cs with
    | [] => [[c]]
    | h :: t => if c = sep then [] :: h :: t else (c :: h) :: t

/-- Embedding of `s.slice(0, e)` for a possibly negative end index `e`:
a negative `e` counts from the end of the string, clamped at `0`. -/
def jsSliceTo (xs : List Char) (e : Int) : List Char :=
  xs.take (if e < 0 then ((xs.length : Int) + e).toNat else e.toNat)

theorem jsSplit_ne_nil (sep : Char) (xs : List Char) : jsSplit sep xs ≠ [] := by
  cases xs with
  | nil => simp [jsSplit]
  | cons c cs =>
    simp only [jsSplit]
    cases jsSplit sep cs with
    | nil => simp
    | cons h t =>
      by_cases hc : c = sep <;> simp [hc]

/-- The number of pieces `split` returns is the separator count plus one. -/
theorem jsSplit_length (sep : Char) (xs : List Char) :
    (jsSplit sep xs).length = xs.count sep + 1 := by
  induction xs with
  | nil => simp [jsSplit]
  | cons c cs ih =>
    simp only [jsSplit]
    rcases hsplit : jsSplit sep cs with _ | ⟨h, t⟩
    · exact absurd hsplit (jsSplit_ne_nil sep cs)
    · by_cases hc : c = sep
      · subst hc
        simp only [if_pos rfl, List.length_cons, List.count_cons_self]
        rw [hsplit] at ih
        simpa using ih
      · simp only [if_neg hc, List.length_cons]
        rw [hsplit] at ih
        simp only [List.length_cons] at ih
        rw [List.count_cons_of_ne (fun h => hc h.symm) ]
        omega

/-- A string without the separator splits into the single piece holding it. -/
theorem jsSplit_of_not_mem (sep : Char) (xs : List Char) (h : sep ∉ xs) :
    jsSplit sep xs = [xs] := by
  induction xs with
  | nil => simp [jsSplit]
  | cons c cs ih =>
    simp only [List.mem_cons, not_or] at h
    have hcs : ¬ c = sep := fun hc => h.1 hc.symm
    simp only [jsSplit, ih h.2, if_neg hcs]

/-! ## Filename sanitizer (`originalNameFormatter`) -/

/-- Embedding of `OrdersHelper.originalNameFormatter`.  A name of length at
most 50 is returned unchanged.  A longer name is split on `'.'`; with more
than two pieces the last piece is the extension and the rest, re-joined with
`'.'`, the stem; with exactly two pieces the first is the stem and the second
the extension; with a single piece the extension variable is `undefined` and
reading its `length` throws, embedded as `none`.  The stem is cut with
`slice(0, 50 - extensionLength - 1)` and re-joined with the extension. -/
def originalNameFormatter (originalName : List Char) : Option (List Char) :=
  if originalName.length > 50 then
    let SPLIT_FILE_NAME := jsSplit '.' originalName
    if SPLIT_FILE_NAME.length > 2 then
      match SPLIT_FILE_NAME.getLast? with
      | some fileExtension =>
        let fileName := List.intercalate ['.'] SPLIT_FILE_NAME.dropLast
        let remainingNameLength : Int := 50 - fileExtension.length
        some (jsSliceTo fileName (remainingNameLength - 1) ++ '.' :: fileExtension)
      | none => none
    else
      match SPLIT_FILE_NAME with
      | s0 :: s1 :: _ =>
        let remainingNameLength : Int := 50 - s1.length
        some (jsSliceTo s0 (remainingNameLength - 1) ++ '.' :: s1)
      | _ => none
  else
    some originalName

/-- The final `'.'`-separated segment of a name (its extension). -/
def finalSegment (name : List Char) : List Char :=
  (jsSplit '.' name).getLastD []

/-- Everything before the final segment, re-joined with `'.'` (the stem). -/
def stemOf (name : List Char) : List Char :=
  List.intercalate ['.'] (jsSplit '.' name).dropLast

/-- On any long name whose split has at least two pieces, the formatter
returns the sliced stem re-joined with the extension. -/
theorem originalNameFormatter_eq_slice (name : List Char)
    (h50 : 50 < name.length) (h2 : 2 ≤ (jsSplit '.' name).length) :
    originalNameFormatter name =
      some (jsSliceTo (stemOf name) (50 - (finalSegment name).length - 1) ++
        '.' :: finalSegment name) := by
  unfold originalNameFormatter
  rw [if_pos h50]
  rcases hsplit : jsSplit '.' name with _ | ⟨s0, tl⟩
  · exact absurd hsplit (jsSplit_ne_nil '.' name)
  rcases tl with _ | ⟨s1, tl2⟩
  · rw [hsplit] at h2; simp at h2
  by_cases hlen : (s0 :: s1 :: tl2).length > 2
  · simp only [if_pos hlen]
    have hne : s0 :: s1 :: tl2 ≠ [] := by simp
    rw [List.getLast?_eq_getLast _ hne]
    simp only [finalSegment, stemOf, hsplit, List.getLastD_eq_getLast?,
      List.getLast?_eq_getLast _ hne, Option.getD_some]
  · have : tl2 = [] := by
      simp only [List.length_cons, gt_iff_lt, not_lt] at hlen
      exact List.length_eq_zero.mp (by omega : tl2.length = 0)
    subst this
    simp only [if_neg hlen]
    simp only [finalSegment, stemOf, hsplit, List.getLastD, List.dropLast,
      List.intercalate, List.intersperse, List.flatten, List.append_nil,
      List.getLast]

/-- A name that contains the separator splits into at least two pieces. -/
theorem two_le_jsSplit_length (sep : Char) (xs : List Char) (h : sep ∈ xs) :
    2 ≤ (jsSplit sep xs).length := by
  rw [jsSplit_length]
  have := List.count_pos_iff.mpr h
  omega

theorem jsSliceTo_length_le (xs : List Char) (e : Int) (he : 0 ≤ e) :
    (jsSliceTo xs e).length ≤ e.toNat := by
  unfold jsSliceTo
  rw [if_neg (not_lt.mpr he), List.length_take]
  exact Nat.min_le_left _ _

/-- The sanitizer as the specification's claim words it: the stem is truncated
to `50 − extensionLength − 1` characters, a nonpositive count leaving an empty
stem (`List.take` on the clamped count).  Stated only for comparison with
`originalNameFormatter`, which uses JavaScript `slice` semantics instead. -/
def specTruncationFormatter (name : List Char) : Option (List Char) :=
  if name.length ≤ 50 then some name
  else if '.' ∈ name then
    some ((stemOf name).take ((50 - ((finalSegment name).length : Int) - 1).toNat)
      ++ '.' :: finalSegment name)
  else none

end EsDbms

namespace EsDbms

/-! ## Claims about the filename sanitizer -/

/-- C10: a display name longer than 50 characters with no `'.'` makes
`originalNameFormatter` throw (the split yields one segment and the extension
variable is `undefined`), embedded as `none`; the sanitizer is total exactly
on names of length at most 50 or containing at least one dot. -/
theorem c10_formatter_partiality :
    (∀ name : List Char, 50 < name.length → '.' ∉ name →
      originalNameFormatter name = none) ∧
    (∀ name : List Char, name.length ≤ 50 ∨ '.' ∈ name →
      (originalNameFormatter name).isSome) := by
  constructor
  · intro name h50 hdot
    unfold originalNameFormatter
    rw [if_pos h50]
    simp only [jsSplit_of_not_mem '.' name hdot]
    simp
  · intro name h
    by_cases h50 : 50 < name.length
    · rcases h with h50' | hdot
      · omega
      · rw [originalNameFormatter_eq_slice name h50
          (two_le_jsSplit_length '.' name hdot)]
        simp
    · unfold originalNameFormatter
      rw [if_neg h50]
      simp

/-- Witness for C10 at concrete inputs: 51 letters `a` throw; `doc.pdf`
succeeds. -/
theorem c10_formatter_partiality_witness :
    originalNameFormatter (List.replicate 51 'a') = none ∧
    (originalNameFormatter ['d', 'o', 'c', '.', 'p', 'd', 'f']).isSome :=
  ⟨c10_formatter_partiality.1 (List.replicate 51 'a') (by decide) (by decide),
   c10_formatter_partiality.2 ['d', 'o', 'c', '.', 'p', 'd', 'f']
     (Or.inl (by decide))⟩

/-- Counterexample to C3 as stated: the 62-character name `"a." ++ "b"*60`
is mapped to a 61-character result, so the formatter does not bound every
name to 50 characters. -/
theorem c3_length_bound_counterexample :
    originalNameFormatter ('a' :: '.' :: List.replicate 60 'b') =
      some ('.' :: List.replicate 60 'b') ∧
    50 < ('.' :: List.replicate 60 'b').length := by
  constructor
  · decide
  · decide

/-- C3 (amended): names of length at most 50 are returned unchanged; a longer
name that contains a dot and whose final `'.'`-segment has at most 49
characters is mapped to a result of length at most 50 that still ends in a
dot followed by that extension. -/
theorem c3_length_bound_amended :
    (∀ name : List Char, name.length ≤ 50 →
      originalNameFormatter name = some name) ∧
    (∀ name : List Char, 50 < name.length → '.' ∈ name →
      (finalSegment name).length ≤ 49 →
      ∃ r, originalNameFormatter name = some r ∧ r.length ≤ 50 ∧
        ∃ stem, r = stem ++ '.' :: finalSegment name) := by
  constructor
  · intro name h50
    unfold originalNameFormatter
    rw [if_neg (by omega)]
  · intro name h50 hdot hext
    rw [originalNameFormatter_eq_slice name h50
      (two_le_jsSplit_length '.' name hdot)]
    refine ⟨_, rfl, ?_, _, rfl⟩
    have hnn : (0 : Int) ≤ 50 - ((finalSegment name).length : Int) - 1 := by
      omega
    have hlen := jsSliceTo_length_le (stemOf name)
      (50 - ((finalSegment name).length : Int) - 1) hnn
    simp only [List.length_append, List.length_cons]
    omega

/-- Witness for C3 (amended) at concrete inputs: `doc` is unchanged and a
59-character name with extension `txt` is bounded to at most 50 characters. -/
theorem c3_length_bound_amended_witness :
    originalNameFormatter ['d', 'o', 'c'] = some ['d', 'o', 'c'] ∧
    ∃ r, originalNameFormatter (List.replicate 55 'x' ++ ['.', 't', 'x', 't']) =
        some r ∧ r.length ≤ 50 ∧
      ∃ stem, r = stem ++ '.' ::
        finalSegment (List.replicate 55 'x' ++ ['.', 't', 'x', 't']) :=
  ⟨c3_length_bound_amended.1 ['d', 'o', 'c'] (by decide),
   c3_length_bound_amended.2 (List.replicate 55 'x' ++ ['.', 't', 'x', 't'])
     (by decide) (by decide) (by decide)⟩

/-- Counterexample to C4 as stated: on `"a"*30 ++ "." ++ "b"*60` the claimed
truncation of the stem to `50 − 60 − 1` characters would empty the stem, but
the code's `slice(0, -11)` keeps the first 19 stem characters. -/
theorem c4_truncation_counterexample :
    originalNameFormatter (List.replicate 30 'a' ++ '.' :: List.replicate 60 'b') =
      some (List.replicate 19 'a' ++ '.' :: List.replicate 60 'b') ∧
    specTruncationFormatter (List.replicate 30 'a' ++ '.' :: List.replicate 60 'b') =
      some ('.' :: List.replicate 60 'b') ∧
    originalNameFormatter (List.replicate 30 'a' ++ '.' :: List.replicate 60 'b') ≠
      specTruncationFormatter (List.replicate 30 'a' ++ '.' :: List.replicate 60 'b') :=
  ⟨by decide, by decide, by decide⟩

/-- C4 (amended): on every name longer than 50 characters containing a dot,
the final `'.'`-segment is the extension and the rest, re-joined with `'.'`,
is the stem; the stem is cut with JavaScript `slice(0, 50 − extLen − 1)`
semantics (a negative end index counts from the end of the stem, clamped at
0) and the result is `stem' ++ "." ++ extension`. -/
theorem c4_truncation_amended (name : List Char) (h50 : 50 < name.length)
    (hdot : '.' ∈ name) :
    originalNameFormatter name =
      some (jsSliceTo (stemOf name) (50 - ((finalSegment name).length : Int) - 1)
        ++ '.' :: finalSegment name) :=
  originalNameFormatter_eq_slice name h50 (two_le_jsSplit_length '.' name hdot)

/-- Witness for C4 (amended): `"a".repeat(60) + ".pdf"` becomes the
50-character name `"a"*46 ++ ".pdf"`. -/
theorem c4_truncation_amended_witness :
    originalNameFormatter (List.replicate 60 'a' ++ ['.', 'p', 'd', 'f']) =
      some (List.replicate 46 'a' ++ ['.', 'p', 'd', 'f']) ∧
    (List.replicate 46 'a' ++ ['.', 'p', 'd', 'f']).length = 50 := by
  constructor
  · rw [c4_truncation_amended (List.replicate 60 'a' ++ ['.', 'p', 'd', 'f'])
      (by decide) (by decide)]
    decide
  · decide

/-! ## Database model

Each table is a list of rows; rows carry the attributes the workflows read or
write (attributes never touched by the embedded functions are omitted).
`findOne` is `List.find?`, `findAll` with a `where` is `List.filter`,
`update` maps over the matching rows, `create` appends; `createdAt` of a
created row is the database clock `now`. -/

structure UserRow where
  id : ℕ
  email : String
deriving DecidableEq, Repr

structure ClientRow where
  id : ℕ
  userId : ℕ
  loginVia : Option String
deriving DecidableEq, Repr

structure CurrencyRow where
  id : ℕ
  currencyCode : String
deriving DecidableEq, Repr

structure OrderRow where
  id : ℕ
  clientId : ℕ
  statusId : ℕ
  pageCount : ℕ
  createdAt : ℕ
deriving DecidableEq, Repr

/-- `orderId` is an `Option` because `updateOrderPayment` writes the raw
`requestOrderId` argument, which its callers pass as `null`. -/
structure OrderPaymentDetailRow where
  orderId : Option ℕ
  currencyId : ℕ
  extras : List ℕ
  extrasTotalPrice : ℚ
  totalPrice : ℚ
  cpp : ℚ
deriving DecidableEq, Repr

structure ClientOrderPostingStepRow where
  clientId : ℕ
  orderId : ℕ
  lastStep : ℕ
  createdAt : ℕ
deriving DecidableEq, Repr

structure PaymentStatusRow where
  id : ℕ
  status : String
deriving DecidableEq, Repr

structure ClientPaymentRow where
  orderId : ℕ
  statusId : ℕ
deriving DecidableEq, Repr

structure OrderStatusRow where
  id : ℕ
  status : String
deriving DecidableEq, Repr

structure WriterRow where
  id : ℕ
  userId : ℕ
deriving DecidableEq, Repr

structure WriterOrderRow where
  orderId : ℕ
  writerId : ℕ
deriving DecidableEq, Repr

structure OrderBidRow where
  orderId : ℕ
  writerId : ℕ
  successful : Bool
deriving DecidableEq, Repr

structure WriterRatingRow where
  orderId : ℕ
  writerId : ℕ
  rating : ℚ
deriving DecidableEq, Repr

structure WriterAverageRatingRow where
  writerId : ℕ
  rating : ℚ
deriving DecidableEq, Repr

structure PaperDiscountRow where
  lowerLimit : ℕ
  discount : ℚ
deriving DecidableEq, Repr

structure OrderFileTypeRow where
  id : ℕ
  type : String
deriving DecidableEq, Repr

structure OrderFileRow where
  orderId : ℕ
  fileUrl : String
  originalName : String
  type : ℕ
  isDeleted : Bool
  submittedPaper : Bool
deriving DecidableEq, Repr

/-- The revision deadline is kept as the raw request date and time strings;
the JavaScript `Date`/`setHours`/`setMinutes` composition is a pure
re-encoding of the same two inputs. -/
structure OrderRevisionRow where
  orderId : ℕ
  revisionInstructions : List (String × String)
  deadlineDate : String
  deadlineTime : String
  creator : ℕ
  submitted : Bool
  isDeleted : Bool
deriving DecidableEq, Repr

structure DB where
  users : List UserRow
  clients : List ClientRow
  currencies : List CurrencyRow
  orders : List OrderRow
  orderPaymentDetails : List OrderPaymentDetailRow
  clientOrderPostingSteps : List ClientOrderPostingStepRow
  paymentStatuses : List PaymentStatusRow
  clientPayments : List ClientPaymentRow
  orderStatuses : List OrderStatusRow
  writers : List WriterRow
  writerOrders : List WriterOrderRow
  orderBids : List OrderBidRow
  writerRatings : List WriterRatingRow
  writerAverageRatings : List WriterAverageRatingRow
  paperDiscounts : List PaperDiscountRow
  orderFileTypes : List OrderFileTypeRow
  orderFiles : List OrderFileRow
  orderRevisions : List OrderRevisionRow
  now : ℕ
deriving DecidableEq, Repr

/-- JavaScript truthiness of an optional number (`null` and `0` are falsy). -/
def jsTruthyNum (o : Option ℕ) : Bool :=
  match o with
  | none => false
  | some n => n != 0

/-- JavaScript `x ? x : null` on an optional string (`null` and `""` falsy). -/
def jsStringOrNull (o : Option String) : Option String :=
  match o with
  | none => none
  | some s => if s.length == 0 then none else some s

/-- `findOne` with `order: [['createdAt', 'DESC']]`: the first row carrying
the greatest `createdAt` value. -/
def latestBy {α : Type} (created : α → ℕ) (l : List α) : Option α :=
  l.foldl (fun acc r =>
    match acc with
    | none => some r
    | some b => if created b < created r then some r else some b) none

end EsDbms


namespace EsDbms

/-! ## Workflow requests and results -/

structure ExtrasItem where
  id : ℕ
deriving DecidableEq, Repr

structure PaymentSummary where
  currencyCode : String
  extrasList : List ExtrasItem
  extrasTotalPrice : ℚ
  totalPrice : ℚ
  cpp : ℚ
deriving DecidableEq, Repr

structure PaymentReq where
  email : String
  orderId : ℕ
  paymentSummary : PaymentSummary
deriving DecidableEq, Repr

/-- The three result shapes of `updateOrderPayment`:
`{response:'success', newOrder:false}`, `{response:'success', orderId}` and
`{response:'no order ID'}`. -/
inductive PayResponse where
  | successNewOrder (newOrder : Bool)
  | successOrderId (orderId : ℕ)
  | noOrderId
deriving DecidableEq, Repr

/-- Embedding of `OrdersHelper.updateOrderPayment`.  `none` models the
transaction rejecting (a thrown property access on a missing row); the
returned `DB` is the committed state. -/
def updateOrderPayment (db : DB) (req : PaymentReq) (phase : String)
    (requestOrderId : Option ℕ) : Option (PayResponse × DB) := do
  let USER ← db.users.find? (fun u => u.email == jsToLower req.email)
  let CLIENT_ID := db.clients.find? (fun c => c.userId == USER.id)
  let CURRENCY_ID := db.currencies.find?
    (fun c => c.currencyCode == req.paymentSummary.currencyCode)
  if req.orderId > 0 || jsTruthyNum requestOrderId then
    let orderId := if req.orderId != 0 then req.orderId else requestOrderId.getD 0
    let EXTRAS_IDS := req.paymentSummary.extrasList.map (fun list => list.id)
    match db.orderPaymentDetails.find? (fun p => p.orderId == some orderId) with
    | some _orderPaymentId =>
      let cur ← CURRENCY_ID
      let updatedRow : OrderPaymentDetailRow → OrderPaymentDetailRow := fun p =>
        { p with
          currencyId := cur.id
          extras := EXTRAS_IDS
          extrasTotalPrice := req.paymentSummary.extrasTotalPrice
          totalPrice := req.paymentSummary.totalPrice
          cpp := req.paymentSummary.cpp }
      let opds := db.orderPaymentDetails.map
        (fun p => if p.orderId == some orderId then updatedRow p else p)
      let db1 := { db with orderPaymentDetails := opds }
      if phase == "check-order" then
        let client ← CLIENT_ID
        let steps := db1.clientOrderPostingSteps ++ [⟨client.id, orderId, 3, db1.now⟩]
        let db2 := { db1 with clientOrderPostingSteps := steps }
        return (.successNewOrder false, db2)
      else
        return (.successNewOrder false, db1)
    | none =>
      let cur ← CURRENCY_ID
      let newRow : OrderPaymentDetailRow :=
        { orderId := requestOrderId
          currencyId := cur.id
          extras := EXTRAS_IDS
          extrasTotalPrice := req.paymentSummary.extrasTotalPrice
          totalPrice := req.paymentSummary.totalPrice
          cpp := req.paymentSummary.cpp }
      let db1 := { db with orderPaymentDetails := db.orderPaymentDetails ++ [newRow] }
      let clientIdInner := db1.orders.find? (fun o => o.id == orderId)
      if phase == "check-order" then
        let ord ← clientIdInner
        let steps := db1.clientOrderPostingSteps ++ [⟨ord.clientId, orderId, 3, db1.now⟩]
        let db2 := { db1 with clientOrderPostingSteps := steps }
        return (.successOrderId orderId, db2)
      else
        return (.successOrderId orderId, db1)
  else
    return (.noOrderId, db)

/-- Embedding of `OrdersHelper.saveOrderPaymentDetails`: delegates with
phase `'check-order'` and a `null` fallback order id. -/
def saveOrderPaymentDetails (db : DB) (req : PaymentReq) :
    Option (PayResponse × DB) :=
  updateOrderPayment db req "check-order" none

structure StatusReq where
  orderId : ℕ
  writerId : ℕ
  type : String
deriving DecidableEq, Repr

structure StatusResult where
  statusUpdated : Bool
  message : Option String
  writerAlreadyChosen : Bool
deriving DecidableEq, Repr

/-- Embedding of `OrdersHelper.updateOrderStatus`.  `Order.update` resolves
to the one-element array `[affectedCount]`, on which the source's truthiness
test is performed (a JavaScript array is always truthy, so the failure branch
is dead code). -/
def updateOrderStatus (db : DB) (req : StatusReq) :
    Option (StatusResult × DB) := do
  let SUCCESS_PAYMENT_STATUS ← db.paymentStatuses.find?
    (fun s => s.status == "Success")
  let ORDER_ALREADY_PAID_FOR := db.clientPayments.find?
    (fun p => p.orderId == req.orderId && p.statusId == SUCCESS_PAYMENT_STATUS.id)
  let orderStatus :=
    if req.type == "private" then "Ongoing"
    else if ORDER_ALREADY_PAID_FOR.isSome then "Ongoing" else "Pending payment"
  let PENDING_PAYMENT_STATUS ← db.orderStatuses.find?
    (fun s => s.status == orderStatus)
  let newOrders := db.orders.map
    (fun o => if o.id == req.orderId then
      { o with statusId := PENDING_PAYMENT_STATUS.id } else o)
  let db1 := { db with orders := newOrders }
  let orderStatusUpdated : List ℕ :=
    [(db.orders.filter (fun o => o.id == req.orderId)).length]
  if orderStatusUpdated != [] then
    let WRITER ← db1.writers.find? (fun w => w.userId == req.writerId)
    let WRITER_ALREADY_CHOSEN := db1.writerOrders.find?
      (fun wo => wo.orderId == req.orderId && wo.writerId == WRITER.id)
    let newBids := db1.orderBids.map
      (fun b => if b.orderId == req.orderId && b.writerId == WRITER.id then
        { b with successful := true } else b)
    let db2 := if req.type == "public" then { db1 with orderBids := newBids } else db1
    if WRITER_ALREADY_CHOSEN.isSome then
      return (⟨true, none, true⟩, db2)
    else
      let db3 := { db2 with writerOrders := db2.writerOrders ++ [⟨req.orderId, WRITER.id⟩] }
      return (⟨true, none, false⟩, db3)
  else
    return (⟨false, some "Failed to update order status", false⟩, db1)

/-- Embedding of `OrdersHelper.getClientId`: resolves an email to the
client's id, rejecting when the user or client row is missing. -/
def getClientId (db : DB) (email : String) : Option ℕ := do
  let USER ← db.users.find? (fun u => u.email == jsToLower email)
  let client ← db.clients.find? (fun c => c.userId == USER.id)
  return client.id

structure RateReq where
  orderId : ℕ
  rating : ℚ
deriving DecidableEq, Repr

/-- The two "already rated" / boolean result shapes of `rateWriter`:
`{rated:true}` and a bare boolean. -/
inductive RateResult where
  | ratedObj
  | plainBool (b : Bool)
deriving DecidableEq, Repr

/-- Embedding of `OrdersHelper.rateWriter`. -/
def rateWriter (db : DB) (req : RateReq) : Option (RateResult × DB) := do
  let ORDER_ALREADY_RATED := db.writerRatings.find?
    (fun r => r.orderId == req.orderId)
  if ORDER_ALREADY_RATED.isSome then
    return (.ratedObj, db)
  else
    let WRITER ← db.writerOrders.find? (fun wo => wo.orderId == req.orderId)
    let WRITER_RATED_ON_ORDER_ALREADY := db.writerRatings.find?
      (fun r => r.orderId == req.orderId && r.writerId == WRITER.writerId)
    if WRITER_RATED_ON_ORDER_ALREADY.isSome then
      return (.plainBool true, db)
    else
      let newRating : WriterRatingRow := ⟨req.orderId, WRITER.writerId, req.rating⟩
      let db1 := { db with writerRatings := db.writerRatings ++ [newRating] }
      match db1.writerAverageRatings.find?
          (fun a => a.writerId == WRITER.writerId) with
      | some AVERAGE_RATING =>
        let PREVIOUS_RATINGS := db1.writerRatings.filter
          (fun r => r.writerId == WRITER.writerId)
        let totalRating : ℚ :=
          AVERAGE_RATING.rating * ((PREVIOUS_RATINGS.length : ℚ) - 1) + req.rating
        let NEW_AVERAGE_RATING := totalRating / (PREVIOUS_RATINGS.length : ℚ)
        let newAvgs := db1.writerAverageRatings.map
          (fun a => if a.writerId == WRITER.writerId then
            { a with rating := NEW_AVERAGE_RATING } else a)
        let db2 := { db1 with writerAverageRatings := newAvgs }
        return (.plainBool true, db2)
      | none =>
        let newAvg : WriterAverageRatingRow := ⟨WRITER.writerId, req.rating⟩
        let db2 := { db1 with writerAverageRatings := db1.writerAverageRatings ++ [newAvg] }
        return (.plainBool true, db2)

end EsDbms

namespace EsDbms

/-- Embedding of `OrdersHelper.confirmOrderOwnership`: the order row when it
belongs to the client resolved from the email, `none` inside the `some` when
it does not, and an outer `none` when the email cannot be resolved. -/
def confirmOrderOwnership (db : DB) (email : String) (orderId : ℕ) :
    Option (Option OrderRow) := do
  let CLIENT_ID ← getClientId db email
  return db.orders.find? (fun o => o.id == orderId && o.clientId == CLIENT_ID)

structure DeadlineReq where
  date : String
  time : String
deriving DecidableEq, Repr

/-- One checklist entry of a revision request: the `key` flag marks the entry
as selected, `val` is the instruction text. -/
structure ChecklistEntry where
  key : Bool
  val : String
deriving DecidableEq, Repr

structure SupportingFile where
  fileUrl : String
  originalName : String
deriving DecidableEq, Repr

structure RevisionReq where
  email : String
  orderId : ℕ
  checklist : List (String × ChecklistEntry)
  deadline : DeadlineReq
  supportingFiles : List SupportingFile
deriving DecidableEq, Repr

/-- The result shapes of `revisionRequest`: `{success:true}` or
`{success:false, message}`. -/
inductive RevResult where
  | ok
  | failure (message : String)
deriving DecidableEq, Repr

/-- Embedding of `OrdersHelper.revisionRequest`. -/
def revisionRequest (db : DB) (req : RevisionReq) : Option (RevResult × DB) := do
  let USER ← db.users.find? (fun u => u.email == jsToLower req.email)
  let CLIENT_ID ← getClientId db req.email
  match db.orders.find? (fun o => o.id == req.orderId && o.clientId == CLIENT_ID) with
  | none => return (.failure "Order does not exist", db)
  | some _orderExists =>
    let CHECKLIST := (req.checklist.filter (fun e => e.2.key)).map
      (fun e => (e.1, e.2.val))
    let db1 ←
      if req.supportingFiles.length > 0 then do
        let ORDER_FILE_TYPE ← db.orderFileTypes.find?
          (fun t => t.type == "Revision Supporting")
        req.supportingFiles.foldlM (fun (acc : DB) sf => do
          let FINAL_ORIGINAL_NAME ← originalNameFormatter sf.originalName.data
          let newFile : OrderFileRow :=
            ⟨req.orderId, sf.fileUrl, ⟨FINAL_ORIGINAL_NAME⟩,
              ORDER_FILE_TYPE.id, false, false⟩
          return { acc with orderFiles := acc.orderFiles ++ [newFile] }) db
      else
        pure db
    let ORDER_STATUS ← db1.orders.find? (fun o => o.id == req.orderId)
    let statusJoin ← db1.orderStatuses.find? (fun s => s.id == ORDER_STATUS.statusId)
    let db2 ←
      if statusJoin.status != "Undergoing revision" then do
        let REVISION_ORDER_STATUS ← db1.orderStatuses.find?
          (fun s => s.status == "Undergoing revision")
        let newOrders := db1.orders.map
          (fun o => if o.id == req.orderId then
            { o with statusId := REVISION_ORDER_STATUS.id } else o)
        pure { db1 with orders := newOrders }
      else
        pure db1
    let newRevision : OrderRevisionRow :=
      ⟨req.orderId, CHECKLIST, req.deadline.date, req.deadline.time,
        USER.id, false, false⟩
    let db3 := { db2 with orderRevisions := db2.orderRevisions ++ [newRevision] }
    return (.ok, db3)

/-- The `paperDiscount` field of the resume projection: the number `0`, a
`PaperDiscount` row, or `null` when no tier matches. -/
inductive FinalDiscount where
  | num (n : ℚ)
  | tier (d : PaperDiscountRow)
  | nullDiscount
deriving DecidableEq, Repr

/-- The three result shapes of `orderDetails`: no order at all, an order that
is already effectively paid (posting step `'Finished'`), and the full resume
payload for an unpaid order. -/
inductive ODResult where
  | noOrder (loginVia : Option String) (user : ClientRow)
  | finished (loginVia : Option String) (user : ClientRow)
  | resume (order : OrderRow) (paperDiscount : FinalDiscount)
      (loginVia : Option String)
      (orderPostingStep : Option ClientOrderPostingStepRow)
      (orderPaymentDetails : Option OrderPaymentDetailRow)
      (orderAlreadyPaidFor : Bool)
      (orderAssignment : Option WriterOrderRow)
      (orderFiles : List OrderFileRow)
      (user : ClientRow)
deriving DecidableEq, Repr

/-- Embedding of `OrdersHelper.orderDetails` (the "resume where you left off"
projection).  Joined reference attributes that are only copied into the
payload (writer names, currency labels, format data) are represented by the
underlying rows. -/
def orderDetails (db : DB) (client : ClientRow) (orderId : ℕ)
    (gotStarted : Bool) : Option (ODResult × DB) := do
  let myQuery : OrderRow → Bool :=
    if orderId != 0 then
      fun o => o.clientId == client.id && o.id == orderId
    else
      fun o => o.clientId == client.id
  match latestBy (fun o => o.createdAt) (db.orders.filter myQuery) with
  | none =>
    return (.noOrder (jsStringOrNull client.loginVia) client, db)
  | some LATEST_ORDER =>
    let DISCOUNT := db.paperDiscounts.find?
      (fun d => decide (LATEST_ORDER.pageCount ≤ d.lowerLimit))
    let finalDiscount : FinalDiscount :=
      if LATEST_ORDER.pageCount == 1 then .num 0
      else
        match DISCOUNT with
        | some d => .tier d
        | none => .nullDiscount
    let ORDER_PAID ← db.orders.find? (fun o => o.id == LATEST_ORDER.id)
    let paidStatusJoin ← db.orderStatuses.find? (fun s => s.id == ORDER_PAID.statusId)
    let UNPAID_ORDERS_STATUSES :=
      ["Pending payment", "Pending writer acknowledgement", "Available",
        "Bidding ongoing"]
    let orderAlreadyPaid :=
      gotStarted || !(UNPAID_ORDERS_STATUSES.contains paidStatusJoin.status)
    if orderAlreadyPaid then
      return (.finished (jsStringOrNull client.loginVia) client, db)
    else
      let ORDER_PAYMENT_DETAILS := db.orderPaymentDetails.find?
        (fun p => p.orderId == some LATEST_ORDER.id)
      let ORDER_PAYMENT_STATUS ← db.paymentStatuses.find?
        (fun s => s.status == "Success")
      let ORDER_ALREADY_PAID_FOR := db.clientPayments.find?
        (fun p => p.statusId == ORDER_PAYMENT_STATUS.id &&
          p.orderId == LATEST_ORDER.id)
      let ORDER_ASSIGNMENT := db.writerOrders.find?
        (fun w => w.orderId == LATEST_ORDER.id)
      let ORDER_FILE_TYPE ← db.orderFileTypes.find?
        (fun t => t.type == "Client Supporting")
      let ORDER_FILES := db.orderFiles.filter
        (fun f => f.orderId == LATEST_ORDER.id && f.isDeleted == false &&
          f.type == ORDER_FILE_TYPE.id)
      let orderStep := latestBy (fun s => s.createdAt)
        (db.clientOrderPostingSteps.filter (fun s => s.clientId == client.id))
      return (.resume LATEST_ORDER finalDiscount
        (jsStringOrNull client.loginVia) orderStep ORDER_PAYMENT_DETAILS
        ORDER_ALREADY_PAID_FOR.isSome ORDER_ASSIGNMENT ORDER_FILES client, db)

end EsDbms

namespace EsDbms

/-! ## Concrete database states used by witnesses and counterexamples -/

def emptyDB : DB := ⟨[], [], [], [], [], [], [], [], [], [], [], [], [], [], [], [], [], [], 0⟩

def c2Db : DB := { emptyDB with
  users := [⟨1, "alice@x.com"⟩]
  clients := [⟨10, 1, none⟩]
  currencies := [⟨20, "USD"⟩]
  orders := [⟨7, 10, 30, 2, 100⟩]
  now := 500 }

def c2Req : PaymentReq := ⟨"alice@x.com", 7, ⟨"USD", [⟨3⟩], 5, 50, 10⟩⟩

/-- C2 (bug demonstration): `saveOrderPaymentDetails` on a database holding
order 7 with no payment-detail row resolves the order id to 7, reports
`{response:'success', orderId:7}` and creates the step-3 posting-step row
for order 7, but the `OrderPaymentDetail` row it creates carries the raw
`requestOrderId` argument — `null` for every caller — instead of the
resolved order id, so no payment-detail row attached to order 7 exists
afterwards. -/
theorem c2_payment_detail_misattached :
    saveOrderPaymentDetails c2Db c2Req =
      some (.successOrderId 7,
        { c2Db with
          orderPaymentDetails := [⟨none, 20, [3], 5, 50, 10⟩]
          clientOrderPostingSteps := [⟨10, 7, 3, 500⟩] }) ∧
    ∀ p ∈ (((saveOrderPaymentDetails c2Db c2Req).map
      (fun rd => rd.2)).getD c2Db).orderPaymentDetails, p.orderId ≠ some 7 := by
  constructor
  · rfl
  · decide

/-- The `paperDiscount` carried by a `resume`-shaped projection result. -/
def resumeDiscount : ODResult → Option FinalDiscount
  | .resume _ d _ _ _ _ _ _ _ => some d
  | _ => none

def c1Client : ClientRow := ⟨10, 1, none⟩

def c1Db : DB := { emptyDB with
  clients := [c1Client]
  orders := [⟨5, 10, 30, 3, 100⟩]
  orderStatuses := [⟨30, "Pending payment"⟩]
  paymentStatuses := [⟨40, "Success"⟩]
  paperDiscounts := [⟨2, 5⟩, ⟨10, 7⟩]
  orderFileTypes := [⟨50, "Client Supporting"⟩] }

/-- Counterexample to C1 as stated: with tiers `{lowerLimit 2, discount 5}`
and `{lowerLimit 10, discount 7}` and a latest order of page count 3, the
projection returns the tier with lower bound 10 — a lower bound *greater*
than the page count — even though the tier with lower bound `2 ≤ 3` is
configured; the lookup is by lower bound ≥ page count, not ≤. -/
theorem c1_discount_counterexample :
    ((orderDetails c1Db c1Client 0 false).map
      (fun rd => resumeDiscount rd.1)) = some (some (.tier ⟨10, 7⟩)) ∧
    ¬((10 : ℕ) ≤ 3) ∧
    (⟨2, 5⟩ : PaperDiscountRow) ∈ c1Db.paperDiscounts ∧ (2 : ℕ) ≤ 3 := by
  refine ⟨by rfl, by decide, by decide, by decide⟩

end EsDbms

namespace EsDbms

/-- The resume projection's discount computation, factored out of
`orderDetails` for statement reuse: `0` for a single page, else the first
discount tier whose `lowerLimit` is at least the page count, `null` when no
tier qualifies. -/
def computeFinalDiscount (db : DB) (pc : ℕ) : FinalDiscount :=
  if pc == 1 then .num 0
  else
    match db.paperDiscounts.find? (fun t => decide (pc ≤ t.lowerLimit)) with
    | some r => .tier r
    | none => .nullDiscount

theorem finalDiscount_spec (db : DB) (pc : ℕ) (dd : FinalDiscount)
    (hdd : dd = computeFinalDiscount db pc) :
    (pc = 1 → dd = .num 0) ∧
    (pc ≠ 1 →
      ((∃ r ∈ db.paperDiscounts, pc ≤ r.lowerLimit) →
        ∃ r pre post, dd = .tier r ∧
          db.paperDiscounts = pre ++ r :: post ∧
          pc ≤ r.lowerLimit ∧
          ∀ q ∈ pre, q.lowerLimit < pc) ∧
      ((∀ r ∈ db.paperDiscounts, r.lowerLimit < pc) → dd = .nullDiscount)) := by
  unfold computeFinalDiscount at hdd
  constructor
  · intro h1
    subst h1
    simp at hdd
    exact hdd
  · intro hne
    rw [if_neg (by simpa using hne)] at hdd
    constructor
    · rintro ⟨r0, hr0mem, hr0le⟩
      rcases hfind : db.paperDiscounts.find? (fun t => decide (pc ≤ t.lowerLimit))
          with _ | r
      · have := List.find?_eq_none.mp hfind r0 hr0mem
        exact absurd hr0le (by simpa using this)
      · rw [hfind] at hdd
        obtain ⟨hp, pre, post, hsplit, hall⟩ := List.find?_eq_some.mp hfind
        refine ⟨r, pre, post, hdd, hsplit, by simpa using hp, fun q hq => ?_⟩
        have := hall q hq
        simp only [Bool.not_eq_eq_eq_not, Bool.not_true, decide_eq_false_iff_not,
          not_le] at this
        exact this
    · intro hnull
      have hfind : db.paperDiscounts.find?
          (fun t => decide (pc ≤ t.lowerLimit)) = none := by
        rw [List.find?_eq_none]
        intro x hx
        simpa using Nat.not_le.mpr (hnull x hx)
      rw [hfind] at hdd
      exact hdd

/-- Whenever the resume projection returns its full (`resume`) payload, the
discount it carries is exactly `computeFinalDiscount` of the latest order's
page count. -/
theorem orderDetails_resume_discount (db : DB) (client : ClientRow)
    (orderId : ℕ) (gotStarted : Bool) (res : ODResult) (db' : DB)
    (o : OrderRow) (d : FinalDiscount) (lv : Option String)
    (step : Option ClientOrderPostingStepRow) (opd : Option OrderPaymentDetailRow)
    (paid : Bool) (asg : Option WriterOrderRow) (files : List OrderFileRow)
    (usr : ClientRow)
    (h : orderDetails db client orderId gotStarted = some (res, db'))
    (hres : res = .resume o d lv step opd paid asg files usr) :
    d = computeFinalDiscount db o.pageCount := by
  subst hres
  unfold orderDetails at h
  split at h <;>
  · dsimp only [] at h
    split at h
    · simp at h
    · rename_i LATEST hlatest
      repeat' split at h
      all_goals (
        rcases hop : List.find? (fun x => x.id == LATEST.id) db.orders with _ | op
        · rw [hop] at h; simp at h
        · rw [hop] at h
          simp only [Option.bind_eq_bind, Option.some_bind', Option.pure_def] at h
          rcases hps : List.find? (fun s => s.id == op.statusId) db.orderStatuses
              with _ | ps
          · rw [hps] at h; simp at h
          · rw [hps] at h
            simp only [Option.bind_eq_bind, Option.some_bind'] at h
            split at h
            · simp at h
            · rcases hops : List.find? (fun s => s.status == "Success")
                  db.paymentStatuses with _ | ops
              · rw [hops] at h; simp at h
              · rw [hops] at h
                simp only [Option.bind_eq_bind, Option.some_bind'] at h
                rcases hoft : List.find? (fun t => t.type == "Client Supporting")
                    db.orderFileTypes with _ | oft
                · rw [hoft] at h; simp at h
                · rw [hoft] at h
                  simp only [Option.bind_eq_bind, Option.some_bind',
                    Option.some_inj, Prod.mk.injEq, ODResult.resume.injEq] at h
                  obtain ⟨⟨ho, hd, -⟩, -⟩ := h
                  subst ho
                  rw [← hd]
                  simp [computeFinalDiscount, *])

/-- C1 (amended): whenever the resume projection returns its full payload for
a latest order, a page count of exactly 1 yields the discount `0` regardless
of configured tiers; for any other page count the returned discount is the
*first* configured tier whose lower bound is greater than or equal to the
page count (every tier before it in table order has a smaller lower bound),
and `null` exactly when no configured tier qualifies. -/
theorem c1_discount_amended (db : DB) (client : ClientRow) (orderId : ℕ)
    (gotStarted : Bool) (res : ODResult) (db' : DB)
    (o : OrderRow) (d : FinalDiscount) (lv : Option String)
    (step : Option ClientOrderPostingStepRow) (opd : Option OrderPaymentDetailRow)
    (paid : Bool) (asg : Option WriterOrderRow) (files : List OrderFileRow)
    (usr : ClientRow)
    (h : orderDetails db client orderId gotStarted = some (res, db'))
    (hres : res = .resume o d lv step opd paid asg files usr) :
    (o.pageCount = 1 → d = .num 0) ∧
    (o.pageCount ≠ 1 →
      ((∃ r ∈ db.paperDiscounts, o.pageCount ≤ r.lowerLimit) →
        ∃ r pre post, d = .tier r ∧
          db.paperDiscounts = pre ++ r :: post ∧
          o.pageCount ≤ r.lowerLimit ∧
          ∀ q ∈ pre, q.lowerLimit < o.pageCount) ∧
      ((∀ r ∈ db.paperDiscounts, r.lowerLimit < o.pageCount) →
        d = .nullDiscount)) :=
  finalDiscount_spec db o.pageCount d
    (orderDetails_resume_discount db client orderId gotStarted res db' o d lv
      step opd paid asg files usr h hres)

/-- Witness for C1 (amended) on the concrete database `c1Db`: the latest
order has page count 3, the tiers are `⟨2, 5⟩` and `⟨10, 7⟩`, and the
projection returns `⟨10, 7⟩` — the first tier with lower bound ≥ 3, the
tier before it having lower bound 2 < 3. -/
theorem c1_discount_amended_witness :
    ((3 : ℕ) = 1 → FinalDiscount.tier ⟨10, 7⟩ = .num 0) ∧
    ((3 : ℕ) ≠ 1 →
      ((∃ r ∈ c1Db.paperDiscounts, 3 ≤ r.lowerLimit) →
        ∃ r pre post, FinalDiscount.tier ⟨10, 7⟩ = .tier r ∧
          c1Db.paperDiscounts = pre ++ r :: post ∧
          3 ≤ r.lowerLimit ∧
          ∀ q ∈ pre, q.lowerLimit < 3) ∧
      ((∀ r ∈ c1Db.paperDiscounts, r.lowerLimit < 3) →
        FinalDiscount.tier ⟨10, 7⟩ = .nullDiscount)) :=
  c1_discount_amended c1Db c1Client 0 false
    (.resume ⟨5, 10, 30, 3, 100⟩ (.tier ⟨10, 7⟩) none none none false none []
      c1Client) c1Db
    ⟨5, 10, 30, 3, 100⟩ (.tier ⟨10, 7⟩) none none none false none [] c1Client
    (by rfl) rfl

end EsDbms

namespace EsDbms

/-! ## Revision workflow claim -/

/-- C9: when the requested order id does not belong to the client resolved
from the request email, `revisionRequest` answers
`{success:false, message:"Order does not exist"}` and the database is
returned unchanged — no file row, status transition or revision row. -/
theorem c9_revision_unowned_noop (db : DB) (req : RevisionReq) (cid : ℕ)
    (hcid : getClientId db req.email = some cid)
    (hnone : db.orders.find?
      (fun o => o.id == req.orderId && o.clientId == cid) = none) :
    revisionRequest db req = some (.failure "Order does not exist", db) := by
  rcases hu : db.users.find? (fun x => x.email == jsToLower req.email) with _ | u
  · rw [getClientId, hu] at hcid
    simp at hcid
  · unfold revisionRequest
    rw [hu]
    simp only [Option.bind_eq_bind, Option.some_bind']
    rw [hcid]
    simp only [Option.bind_eq_bind, Option.some_bind']
    rw [hnone]
    rfl

def c9Db : DB := { emptyDB with
  users := [⟨2, "bob@x.com"⟩]
  clients := [⟨11, 2, none⟩, ⟨99, 3, none⟩]
  orders := [⟨8, 99, 30, 2, 100⟩] }

def c9Req : RevisionReq := ⟨"bob@x.com", 8, [], ⟨"2021-01-01", "10:30"⟩, []⟩

/-- Witness for C9: client 11 (resolved from `bob@x.com`) asks for a
revision of order 8, which belongs to client 99. -/
theorem c9_revision_unowned_noop_witness :
    revisionRequest c9Db c9Req = some (.failure "Order does not exist", c9Db) :=
  c9_revision_unowned_noop c9Db c9Req 11 (by rfl) (by rfl)

/-! ## Order status and assignment claims -/

/-- C7: whatever else `updateOrderStatus` does, the order's status is set to
"Ongoing" when a successful `ClientPayment` exists for the order or the
request's visibility is private, and to "Pending payment" otherwise; the
status row for that label must exist and every order row with the requested
id receives its id. -/
theorem c7_status_target (db : DB) (req : StatusReq) (res : StatusResult)
    (db' : DB) (sps : PaymentStatusRow)
    (hsps : db.paymentStatuses.find? (fun s => s.status == "Success") = some sps)
    (h : updateOrderStatus db req = some (res, db')) :
    ∃ st : OrderStatusRow,
      db.orderStatuses.find? (fun s => s.status ==
        (if (db.clientPayments.find? (fun p => p.orderId == req.orderId &&
              p.statusId == sps.id)).isSome || req.type == "private"
          then "Ongoing" else "Pending payment")) = some st ∧
      db'.orders = db.orders.map
        (fun o => if o.id == req.orderId then { o with statusId := st.id } else o) := by
  unfold updateOrderStatus at h
  rw [hsps] at h
  simp only [Option.bind_eq_bind, Option.some_bind'] at h
  have hss : (if req.type == "private" then "Ongoing"
      else if (db.clientPayments.find? (fun p => p.orderId == req.orderId &&
          p.statusId == sps.id)).isSome then "Ongoing" else "Pending payment") =
      (if (db.clientPayments.find? (fun p => p.orderId == req.orderId &&
          p.statusId == sps.id)).isSome || req.type == "private"
        then "Ongoing" else "Pending payment") := by
    cases hp : (db.clientPayments.find? (fun p => p.orderId == req.orderId &&
        p.statusId == sps.id)).isSome <;>
      cases hv : (req.type == "private") <;> simp [hp, hv]
  rw [hss] at h
  rcases hst : db.orderStatuses.find? (fun s => s.status ==
      (if (db.clientPayments.find? (fun p => p.orderId == req.orderId &&
          p.statusId == sps.id)).isSome || req.type == "private"
        then "Ongoing" else "Pending payment")) with _ | st
  · rw [hst] at h; simp at h
  · rw [hst] at h
    simp only [Option.bind_eq_bind, Option.some_bind'] at h
    refine ⟨st, hst, ?_⟩
    split at h
    · rcases hw : db.writers.find? (fun w => w.userId == req.writerId) with _ | w
      · rw [hw] at h
        simp at h
      · rw [hw] at h
        simp only [Option.bind_eq_bind, Option.some_bind'] at h
        split at h <;>
          (simp only [Option.pure_def, Option.some_inj, Prod.mk.injEq] at h
           obtain ⟨-, hdb⟩ := h
           subst hdb
           cases hpub : (req.type == "public") <;> simp [hpub])
    · simp only [Option.pure_def, Option.some_inj, Prod.mk.injEq] at h
      obtain ⟨-, hdb⟩ := h
      subst hdb
      rfl

def c7Db : DB := { emptyDB with
  orders := [⟨3, 10, 30, 2, 100⟩]
  orderStatuses := [⟨30, "Pending payment"⟩, ⟨31, "Ongoing"⟩]
  paymentStatuses := [⟨40, "Success"⟩]
  writers := [⟨60, 6⟩]
  orderBids := [⟨3, 60, false⟩] }

def c7Req : StatusReq := ⟨3, 6, "public"⟩

def c7DbAfter : DB := { emptyDB with
  orders := [⟨3, 10, 30, 2, 100⟩]
  orderStatuses := [⟨30, "Pending payment"⟩, ⟨31, "Ongoing"⟩]
  paymentStatuses := [⟨40, "Success"⟩]
  writers := [⟨60, 6⟩]
  writerOrders := [⟨3, 60⟩]
  orderBids := [⟨3, 60, true⟩] }

/-- Witness for C7: an unpaid public order receives status
"Pending payment". -/
theorem c7_status_target_witness :
    ∃ st : OrderStatusRow,
      c7Db.orderStatuses.find? (fun s => s.status ==
        (if (c7Db.clientPayments.find? (fun p => p.orderId == 3 &&
              p.statusId == 40)).isSome || "public" == "private"
          then "Ongoing" else "Pending payment")) = some st ∧
      c7DbAfter.orders = c7Db.orders.map
        (fun o => if o.id == 3 then { o with statusId := st.id } else o) :=
  c7_status_target c7Db c7Req ⟨true, none, false⟩ c7DbAfter ⟨40, "Success"⟩
    (by rfl) (by rfl)

/-- What one `updateOrderStatus` call does to the assignment table: the
pre-insert existence check makes the call a no-op on `writerOrders` when the
(order, writer) pair is already present, and appends exactly that pair when
it is not; the `writerAlreadyChosen` flag reports which case occurred. -/
theorem updateOrderStatus_assignment (db : DB) (req : StatusReq)
    (res : StatusResult) (db' : DB) (w : WriterRow)
    (hw : db.writers.find? (fun x => x.userId == req.writerId) = some w)
    (h : updateOrderStatus db req = some (res, db')) :
    db'.writers = db.writers ∧
    (if (db.writerOrders.find? (fun wo => wo.orderId == req.orderId &&
          wo.writerId == w.id)).isSome
      then db'.writerOrders = db.writerOrders ∧ res.writerAlreadyChosen = true
      else db'.writerOrders = db.writerOrders ++ [⟨req.orderId, w.id⟩] ∧
        res.writerAlreadyChosen = false) := by
  unfold updateOrderStatus at h
  rcases hsps : db.paymentStatuses.find? (fun s => s.status == "Success") with _ | sps
  · rw [hsps] at h; simp at h
  · rw [hsps] at h
    simp only [Option.bind_eq_bind, Option.some_bind'] at h
    rcases hst : db.orderStatuses.find? (fun s => s.status ==
        (if req.type == "private" then "Ongoing"
          else if (db.clientPayments.find? (fun p => p.orderId == req.orderId &&
              p.statusId == sps.id)).isSome then "Ongoing"
          else "Pending payment")) with _ | st
    · rw [hst] at h; simp at h
    · rw [hst] at h
      simp only [Option.bind_eq_bind, Option.some_bind'] at h
      split at h
      · try dsimp only [] at h
        rw [hw] at h
        simp only [Option.bind_eq_bind, Option.some_bind'] at h
        rcases hch : db.writerOrders.find? (fun wo => wo.orderId == req.orderId &&
            wo.writerId == w.id) with _ | ch
        · rw [hch] at h
          simp only [Option.isSome_none, Bool.false_eq_true, if_false,
            Option.pure_def, Option.some_inj, Prod.mk.injEq] at h
          obtain ⟨hres, hdb⟩ := h
          subst hdb
          rw [hch]
          simp only [Option.isSome_none, Bool.false_eq_true, if_false]
          cases hpub : (req.type == "public") <;>
            simp [hpub, ← hres]
        · rw [hch] at h
          simp only [Option.isSome_some, if_true, Option.pure_def,
            Option.some_inj, Prod.mk.injEq] at h
          obtain ⟨hres, hdb⟩ := h
          subst hdb
          rw [hch]
          simp only [Option.isSome_some, if_true]
          cases hpub : (req.type == "public") <;>
            simp [hpub, ← hres]
      · rename_i hcond
        simp at hcond

/-- C8: two `updateOrderStatus` invocations for the same (order, writer)
pair never leave two `WriterOrder` rows: the second call creates no row,
reports `writerAlreadyChosen := true`, and if the pair was absent initially
there is exactly one assignment row afterwards. -/
theorem c8_assignment_at_most_once (db : DB) (req : StatusReq) (w : WriterRow)
    (hw : db.writers.find? (fun x => x.userId == req.writerId) = some w)
    (r1 r2 : StatusResult) (dbA dbB : DB)
    (h1 : updateOrderStatus db req = some (r1, dbA))
    (h2 : updateOrderStatus dbA req = some (r2, dbB)) :
    dbB.writerOrders = dbA.writerOrders ∧ r2.writerAlreadyChosen = true ∧
    ((db.writerOrders.filter (fun wo => wo.orderId == req.orderId &&
        wo.writerId == w.id)).length = 0 →
      (dbB.writerOrders.filter (fun wo => wo.orderId == req.orderId &&
        wo.writerId == w.id)).length = 1) := by
  obtain ⟨hwr1, hA⟩ := updateOrderStatus_assignment db req r1 dbA w hw h1
  have hw1 : dbA.writers.find? (fun x => x.userId == req.writerId) = some w := by
    rw [hwr1]; exact hw
  obtain ⟨hwr2, hB⟩ := updateOrderStatus_assignment dbA req r2 dbB w hw1 h2
  rcases hch : db.writerOrders.find? (fun wo => wo.orderId == req.orderId &&
      wo.writerId == w.id) with _ | ch
  · rw [hch] at hA
    simp only [Option.isSome_none, Bool.false_eq_true, if_false] at hA
    obtain ⟨hAwo, -⟩ := hA
    have hfind1 : dbA.writerOrders.find? (fun wo => wo.orderId == req.orderId &&
        wo.writerId == w.id) = some ⟨req.orderId, w.id⟩ := by
      rw [hAwo, List.find?_append, hch]
      simp
    rw [hfind1] at hB
    simp only [Option.isSome_some, if_true] at hB
    obtain ⟨hBwo, hch2⟩ := hB
    refine ⟨hBwo, hch2, fun hlen => ?_⟩
    rw [hBwo, hAwo, List.filter_append]
    rw [List.length_eq_zero] at hlen
    rw [hlen]
    simp
  · rw [hch] at hA
    simp only [Option.isSome_some, if_true] at hA
    obtain ⟨hAwo, -⟩ := hA
    have hfind1 : dbA.writerOrders.find? (fun wo => wo.orderId == req.orderId &&
        wo.writerId == w.id) = some ch := by
      rw [hAwo]; exact hch
    rw [hfind1] at hB
    simp only [Option.isSome_some, if_true] at hB
    obtain ⟨hBwo, hch2⟩ := hB
    refine ⟨hBwo, hch2, fun hlen => ?_⟩
    exfalso
    have hmem := List.mem_of_find?_eq_some hch
    have hp := List.find?_some hch
    have hmf : ch ∈ db.writerOrders.filter (fun wo => wo.orderId == req.orderId &&
        wo.writerId == w.id) := List.mem_filter.mpr ⟨hmem, hp⟩
    rw [List.length_eq_zero] at hlen
    rw [hlen] at hmf
    exact absurd hmf (List.not_mem_nil ch)

def c8Db : DB := { emptyDB with
  orders := [⟨4, 11, 30, 2, 100⟩]
  orderStatuses := [⟨30, "Pending payment"⟩, ⟨31, "Ongoing"⟩]
  paymentStatuses := [⟨40, "Success"⟩]
  writers := [⟨61, 8⟩]
  orderBids := [⟨4, 61, false⟩] }

def c8Req : StatusReq := ⟨4, 8, "public"⟩

def c8DbA : DB := { emptyDB with
  orders := [⟨4, 11, 30, 2, 100⟩]
  orderStatuses := [⟨30, "Pending payment"⟩, ⟨31, "Ongoing"⟩]
  paymentStatuses := [⟨40, "Success"⟩]
  writers := [⟨61, 8⟩]
  writerOrders := [⟨4, 61⟩]
  orderBids := [⟨4, 61, true⟩] }

/-- Witness for C8: the first call assigns writer 61 to order 4, the second
reports the writer as already chosen and the single assignment row stays. -/
theorem c8_assignment_at_most_once_witness :
    c8DbA.writerOrders = c8DbA.writerOrders ∧
    (⟨true, none, true⟩ : StatusResult).writerAlreadyChosen = true ∧
    ((c8Db.writerOrders.filter (fun wo => wo.orderId == 4 &&
        wo.writerId == 61)).length = 0 →
      (c8DbA.writerOrders.filter (fun wo => wo.orderId == 4 &&
        wo.writerId == 61)).length = 1) :=
  c8_assignment_at_most_once c8Db c8Req ⟨61, 8⟩ (by rfl)
    ⟨true, none, false⟩ ⟨true, none, true⟩ c8DbA c8DbA (by rfl) (by rfl)

end EsDbms

namespace EsDbms

/-! ## Rating aggregation claims -/

theorem find?_and_none {α : Type} (l : List α) (p q : α → Bool)
    (h : l.find? p = none) : l.find? (fun x => p x && q x) = none := by
  rw [List.find?_eq_none] at h ⊢
  intro x hx
  simp [h x hx]

/-- A rating row for the order already exists: `rateWriter` reports
`{rated:true}` and leaves the database untouched. -/
theorem rateWriter_already (db : DB) (req : RateReq)
    (h : (db.writerRatings.find? (fun r => r.orderId == req.orderId)).isSome) :
    rateWriter db req = some (.ratedObj, db) := by
  obtain ⟨x, hx⟩ := Option.isSome_iff_exists.mp h
  unfold rateWriter
  rw [hx]
  rfl

/-- No rating row for the order exists and the order has an assigned writer:
`rateWriter` appends the new rating row and either updates the writer's
average row in place using the post-insertion rating count, or seeds a new
average row with the rating itself. -/
theorem rateWriter_creates (db : DB) (req : RateReq) (res : RateResult)
    (db' : DB) (wo : WriterOrderRow)
    (hnone : db.writerRatings.find? (fun r => r.orderId == req.orderId) = none)
    (hwo : db.writerOrders.find? (fun x => x.orderId == req.orderId) = some wo)
    (h : rateWriter db req = some (res, db')) :
    db'.writerRatings =
      db.writerRatings ++ [⟨req.orderId, wo.writerId, req.rating⟩] ∧
    res = .plainBool true ∧
    (∀ avg, db.writerAverageRatings.find?
        (fun a => a.writerId == wo.writerId) = some avg →
      db'.writerAverageRatings = db.writerAverageRatings.map
        (fun a => if a.writerId == wo.writerId then
          { a with rating := (avg.rating *
              ((((db.writerRatings ++
                  ([⟨req.orderId, wo.writerId, req.rating⟩] : List WriterRatingRow)).filter
                (fun r => r.writerId == wo.writerId)).length : ℚ) - 1) + req.rating) /
              (((db.writerRatings ++
                  ([⟨req.orderId, wo.writerId, req.rating⟩] : List WriterRatingRow)).filter
                (fun r => r.writerId == wo.writerId)).length : ℚ) }
          else a)) ∧
    (db.writerAverageRatings.find? (fun a => a.writerId == wo.writerId) = none →
      db'.writerAverageRatings =
        db.writerAverageRatings ++ [⟨wo.writerId, req.rating⟩]) := by
  unfold rateWriter at h
  rw [hnone] at h
  simp only [Option.isSome_none, Bool.false_eq_true, if_false] at h
  rw [hwo] at h
  simp only [Option.bind_eq_bind, Option.some_bind'] at h
  rw [find?_and_none _ _ _ hnone] at h
  simp only [Option.isSome_none, Bool.false_eq_true, if_false] at h
  rcases havg : db.writerAverageRatings.find?
      (fun a => a.writerId == wo.writerId) with _ | avg
  · rw [havg] at h
    simp only [Option.pure_def, Option.some_inj, Prod.mk.injEq] at h
    obtain ⟨hres, hdb⟩ := h
    subst hdb
    refine ⟨rfl, hres.symm, fun a ha => ?_, fun _ => rfl⟩
    rw [havg] at ha
    exact absurd ha (by simp)
  · rw [havg] at h
    simp only [Option.pure_def, Option.some_inj, Prod.mk.injEq] at h
    obtain ⟨hres, hdb⟩ := h
    subst hdb
    refine ⟨rfl, hres.symm, fun a ha => ?_, fun hn => ?_⟩
    · rw [havg] at ha
      injection ha with ha
      subst ha
      rfl
    · rw [havg] at hn
      exact absurd hn (by simp)

/-- C5: a rating row for the order short-circuits `rateWriter` into the
`{rated:true}` outcome without any mutation; hence a second call with the
same order id after a successful first call reports already-rated and leaves
the state of the first call untouched. -/
theorem c5_rate_at_most_once :
    (∀ (db : DB) (req : RateReq),
      (db.writerRatings.find? (fun r => r.orderId == req.orderId)).isSome →
      rateWriter db req = some (.ratedObj, db)) ∧
    (∀ (db dbA dbB : DB) (req : RateReq) (r1 r2 : RateResult),
      db.writerRatings.find? (fun r => r.orderId == req.orderId) = none →
      rateWriter db req = some (r1, dbA) →
      rateWriter dbA req = some (r2, dbB) →
      r2 = .ratedObj ∧ dbB = dbA) := by
  constructor
  · exact fun db req h => rateWriter_already db req h
  · intro db dbA dbB req r1 r2 hnone h1 h2
    rcases hwo : db.writerOrders.find? (fun x => x.orderId == req.orderId) with _ | wo
    · unfold rateWriter at h1
      rw [hnone] at h1
      simp only [Option.isSome_none, Bool.false_eq_true, if_false] at h1
      rw [hwo] at h1
      simp at h1
    · obtain ⟨hrt, -, -, -⟩ := rateWriter_creates db req r1 dbA wo hnone hwo h1
      have hsome : (dbA.writerRatings.find?
          (fun r => r.orderId == req.orderId)).isSome := by
        rw [hrt, List.find?_append, hnone]
        simp
      rw [rateWriter_already dbA req hsome] at h2
      simp only [Option.some_inj, Prod.mk.injEq] at h2
      exact ⟨h2.1.symm, h2.2.symm⟩

def c5DbRated : DB := { emptyDB with writerRatings := [⟨4, 60, 5⟩] }

def c5Db : DB := { emptyDB with writerOrders := [⟨4, 60⟩] }

def c5DbA : DB := { emptyDB with
  writerOrders := [⟨4, 60⟩]
  writerRatings := [⟨4, 60, 5⟩]
  writerAverageRatings := [⟨60, 5⟩] }

/-- Witness for C5: on a database already holding a rating for order 4 the
call is a no-op, and after a first successful rating of order 4 the second
call reports already-rated with an unchanged database. -/
theorem c5_rate_at_most_once_witness :
    rateWriter c5DbRated ⟨4, 2⟩ = some (.ratedObj, c5DbRated) ∧
    (RateResult.ratedObj = RateResult.ratedObj ∧ c5DbA = c5DbA) :=
  ⟨c5_rate_at_most_once.1 c5DbRated ⟨4, 2⟩ (by rfl),
   c5_rate_at_most_once.2 c5Db c5DbA c5DbA ⟨4, 5⟩ (.plainBool true) .ratedObj
     (by rfl) (by rfl) (by rfl)⟩

theorem find?_map_avg_update (l : List WriterAverageRatingRow) (wid : ℕ) (v : ℚ)
    (avg : WriterAverageRatingRow)
    (h : l.find? (fun a => a.writerId == wid) = some avg) :
    (l.map (fun a => if a.writerId == wid then { a with rating := v } else a)).find?
      (fun a => a.writerId == wid) = some { avg with rating := v } := by
  induction l with
  | nil => simp at h
  | cons x xs ih =>
    rw [List.find?_cons] at h
    by_cases hx : (x.writerId == wid) = true
    · rw [hx] at h
      have hxa : x = avg := Option.some.inj h
      subst hxa
      simp only [List.map_cons, if_pos hx]
      simp [List.find?_cons, hx]
    · rw [Bool.not_eq_true] at hx
      have hrest : List.find? (fun a => a.writerId == wid) xs = some avg := by
        rw [hx] at h; exact h
      simp only [List.map_cons, hx, Bool.false_eq_true, if_false]
      rw [List.find?_cons, hx]
      exact ih hrest

/-- Arithmetic mean of a list of rationals. -/
def ratingMean (l : List ℚ) : ℚ := l.sum / l.length

/-- C6: when an average row exists for the assigned writer, the stored new
average is `(oldAverage × (ratingCount − 1) + newRating) / ratingCount` with
`ratingCount` the rating count *after* inserting the new row; if the old
average was the arithmetic mean of the previously stored ratings, the new
average is the mean of all ratings including the new one.  When no average
row exists, one is created holding the new rating itself. -/
theorem c6_average_formula (db : DB) (req : RateReq) (res : RateResult)
    (db' : DB) (wo : WriterOrderRow)
    (hnone : db.writerRatings.find? (fun r => r.orderId == req.orderId) = none)
    (hwo : db.writerOrders.find? (fun x => x.orderId == req.orderId) = some wo)
    (h : rateWriter db req = some (res, db')) :
    (∀ avg, db.writerAverageRatings.find?
        (fun a => a.writerId == wo.writerId) = some avg →
      ((db'.writerAverageRatings.find? (fun a => a.writerId == wo.writerId)).map
          (fun a => a.rating) =
        some ((avg.rating *
            ((((db.writerRatings.filter (fun r => r.writerId == wo.writerId)).length : ℚ) + 1) - 1)
            + req.rating) /
          (((db.writerRatings.filter (fun r => r.writerId == wo.writerId)).length : ℚ) + 1)) ∧
      (db.writerRatings.filter (fun r => r.writerId == wo.writerId) ≠ [] →
        avg.rating = ratingMean ((db.writerRatings.filter
          (fun r => r.writerId == wo.writerId)).map (fun r => r.rating)) →
        (db'.writerAverageRatings.find? (fun a => a.writerId == wo.writerId)).map
            (fun a => a.rating) =
          some (ratingMean (((db.writerRatings.filter
            (fun r => r.writerId == wo.writerId)).map (fun r => r.rating)) ++
            [req.rating]))))) ∧
    (db.writerAverageRatings.find? (fun a => a.writerId == wo.writerId) = none →
      db'.writerAverageRatings =
        db.writerAverageRatings ++ [⟨wo.writerId, req.rating⟩]) := by
  obtain ⟨hrt, hres, hupd, hseed⟩ := rateWriter_creates db req res db' wo hnone hwo h
  refine ⟨?_, hseed⟩
  intro avg havg
  have hv := hupd avg havg
  have hlen : ((db.writerRatings ++
      ([⟨req.orderId, wo.writerId, req.rating⟩] : List WriterRatingRow)).filter
        (fun r => r.writerId == wo.writerId)).length =
      (db.writerRatings.filter (fun r => r.writerId == wo.writerId)).length + 1 := by
    rw [List.filter_append]
    simp
  rw [hlen] at hv
  rw [hv, find?_map_avg_update _ _ _ avg havg]
  simp only [Option.map_some']
  constructor
  · rw [Option.some_inj]
    push_cast
    ring
  · intro hne hmean
    rw [Option.some_inj]
    have hlen0 : ((db.writerRatings.filter
        (fun r => r.writerId == wo.writerId)).length : ℚ) ≠ 0 := by
      have := List.length_pos.mpr hne
      positivity
    rw [hmean]
    unfold ratingMean
    rw [List.sum_append, List.length_append, List.length_map]
    push_cast
    simp only [List.sum_cons, List.sum_nil, List.length_cons, List.length_nil]
    field_simp

def c6Db : DB := { emptyDB with
  writerRatings := [⟨9, 70, 4⟩]
  writerOrders := [⟨5, 70⟩]
  writerAverageRatings := [⟨70, 4⟩] }

def c6DbAfter : DB := { emptyDB with
  writerRatings := [⟨9, 70, 4⟩, ⟨5, 70, 2⟩]
  writerOrders := [⟨5, 70⟩]
  writerAverageRatings := [⟨70, 3⟩] }

/-- Witness for C6: writer 70 has one prior rating 4 (average 4); rating
order 5 with 2 stores the average `(4 × (2 − 1) + 2) / 2 = 3`. -/
theorem c6_average_formula_witness :
    (c6DbAfter.writerAverageRatings.find? (fun a => a.writerId == 70)).map
      (fun a => a.rating) = some 3 := by
  have h3 : rateWriter c6Db ⟨5, 2⟩ = some (.plainBool true, c6DbAfter) := by
    norm_num [rateWriter, c6Db, c6DbAfter, emptyDB]
  have h := (c6_average_formula c6Db ⟨5, 2⟩ (.plainBool true) c6DbAfter ⟨5, 70⟩
    (by rfl) (by rfl) h3).1 ⟨70, 4⟩ (by rfl)
  rw [h.1]
  norm_num [c6Db, emptyDB]

end EsDbms
